import Mathlib

/-!
Verification development for the `keyboard` repository (src/keyboard/__init__.py
and src/setup.py): a shallow embedding of the event-dispatch and
hotkey-matching engine, with theorems settling the specification claims.
-/

/-! ## Key-event record

Mirrors `KeyboardEvent` as consumed by `src/keyboard/__init__.py` (fields
`event_type`, `scan_code`, `name`, `time`).  `KEY_DOWN` / `KEY_UP` are the
module-level constants imported at line 261.  Timestamps are modelled as
integers; only differences of timestamps are ever compared in the source.
-/

inductive PyEventType where
  | down
  | up
deriving DecidableEq

def KEY_DOWN : PyEventType := .down

def KEY_UP : PyEventType := .up

structure KeyboardEvent where
  event_type : PyEventType
  scan_code : Nat
  name : String := ""
  time : Int := 0
deriving DecidableEq

/-! ## Small Python-faithful list/dict helpers -/

/-- Python `set.add`: membership-preserving insert (iteration order of the
resulting set is irrelevant in the source, which always sorts before use). -/
def insertSet (x : Nat) (l : List Nat) : List Nat :=
  if x ∈ l then l else l ++ [x]

/-- Python `set.discard`. -/
def eraseSet (x : Nat) (l : List Nat) : List Nat :=
  l.filter (fun y => y ≠ x)

/-- Python dict assignment `d[k] = v` on an association list (insertion order
preserved, existing key overwritten in place). -/
def assocSet (m : List (Nat × KeyboardEvent)) (k : Nat) (v : KeyboardEvent) :
    List (Nat × KeyboardEvent) :=
  if (m.map Prod.fst).contains k then
    m.map (fun p => if p.1 = k then (k, v) else p)
  else
    m ++ [(k, v)]

/-- Python `del d[k]`. -/
def assocErase (m : List (Nat × KeyboardEvent)) (k : Nat) :
    List (Nat × KeyboardEvent) :=
  m.filter (fun p => p.1 ≠ k)

/-- Stable insertion used to model Python `sorted`. -/
def insertSortedBy (le : α → α → Bool) (x : α) : List α → List α
  | [] => [x]
  | y :: ys => if le y x then y :: insertSortedBy le x ys else x :: y :: ys

/-- Stable sort (Python `sorted`) with a boolean total preorder. -/
def sortBy (le : α → α → Bool) (l : List α) : List α :=
  l.foldr (insertSortedBy le) []

def sortNat : List Nat → List Nat :=
  sortBy (fun a b => Nat.ble a b)

/-! ## Modifier-suppression state machine

`_KeyboardListener.transition_table`, src/keyboard/__init__.py lines 283-324.
The Python `accept` column holds `True`/`False`/`None`; `None` ("no override")
is modelled as `Option.none`.
-/

inductive ModState where
  | free
  | pending
  | suppressed
  | allowed
deriving DecidableEq

inductive Origin where
  | modifier
  | hotkey
  | other
deriving DecidableEq

/-- `(state, event_type, origin) -> (emit_fake_press, accept_override, next_state)`. -/
def transition_table : ModState → PyEventType → Origin → Bool × Option Bool × ModState
  | .free,       .up,   .modifier => (false, some true,  .free)
  | .free,       .down, .modifier => (false, some false, .pending)
  | .pending,    .up,   .modifier => (true,  some true,  .free)
  | .pending,    .down, .modifier => (false, some true,  .allowed)
  | .suppressed, .up,   .modifier => (false, some false, .free)
  | .suppressed, .down, .modifier => (false, some false, .suppressed)
  | .allowed,    .up,   .modifier => (false, some true,  .free)
  | .allowed,    .down, .modifier => (false, some true,  .allowed)
  | .free,       .up,   .hotkey   => (false, none,       .free)
  | .free,       .down, .hotkey   => (false, none,       .free)
  | .pending,    .up,   .hotkey   => (false, none,       .suppressed)
  | .pending,    .down, .hotkey   => (false, none,       .suppressed)
  | .suppressed, .up,   .hotkey   => (false, none,       .suppressed)
  | .suppressed, .down, .hotkey   => (false, none,       .suppressed)
  | .allowed,    .up,   .hotkey   => (false, none,       .allowed)
  | .allowed,    .down, .hotkey   => (false, none,       .allowed)
  | .free,       .up,   .other    => (false, some true,  .free)
  | .free,       .down, .other    => (false, some true,  .free)
  | .pending,    .up,   .other    => (true,  some true,  .allowed)
  | .pending,    .down, .other    => (true,  some true,  .allowed)
  | .suppressed, .up,   .other    => (false, some false, .allowed)
  | .suppressed, .down, .other    => (true,  some true,  .allowed)
  | .allowed,    .up,   .other    => (false, some true,  .allowed)
  | .allowed,    .down, .other    => (false, some true,  .allowed)

/-! ## Listener state and `direct_callback`

`_KeyboardListener`, src/keyboard/__init__.py lines 282-425.  Handlers stored
in the dispatch tables are modelled by the boolean decision they return for an
event (their other side effects play no role in the accept/suppress decision).
`modifier_states` is a Python dict read with `.get(key, 'free')`, so it is
modelled as a total function defaulting to `free`.  `blocking_hotkeys` and
`blocking_keys` are `defaultdict`s read at one key per call; the
auto-vivification of missing keys only affects the dict truthiness of later
calls and is not modelled, as every theorem below concerns a single call.
-/

structure Listener where
  active_modifiers : List Nat
  blocking_hooks : List (KeyboardEvent → Bool)
  blocking_keys : Nat → List (KeyboardEvent → Bool)
  blocking_hotkeys : List (List Nat × List (KeyboardEvent → Bool))
  filtered_modifiers : Nat → Nat
  is_replaying : Bool
  modifier_states : Nat → ModState

/-- Lookup in the `blocking_hotkeys` dispatch table (defaultdict of lists). -/
def lookupHotkeyHandlers (t : List (List Nat × List (KeyboardEvent → Bool)))
    (sig : List Nat) : List (KeyboardEvent → Bool) :=
  match t.find? (fun p => p.1 = sig) with
  | some p => p.2
  | none => []

/-- The `for key in sorted(modifiers_to_update)` loop of `direct_callback`
(lines 406-411): threads the accept flag and the modifier-state map, and
records the scan codes passed to `press` when the table asks for a fake press. -/
def runTransitions (e : KeyboardEvent) (origin : Origin) :
    List Nat → Bool → (Nat → ModState) → Bool × (Nat → ModState) × List Nat
  | [], accept, states => (accept, states, [])
  | k :: ks, accept, states =>
    let step := transition_table (states k) e.event_type origin
    let accept1 := step.2.1.getD accept
    let states1 := fun x => if x = k then step.2.2 else states x
    let rest := runTransitions e origin ks accept1 states1
    (rest.1, rest.2.1, (if step.1 then [k] else []) ++ rest.2.2)

/-- Result of one `direct_callback` invocation: the boolean returned to the OS,
the updated listener and pressed-key tables, the events put on the delivery
queue, and the scan codes sent as synthetic presses by the transition loop. -/
structure DCResult where
  accept : Bool
  listener : Listener
  pressed : List (Nat × KeyboardEvent)
  logical : List (Nat × KeyboardEvent)
  queued : List KeyboardEvent
  synth_presses : List Nat

/-- `_KeyboardListener.direct_callback`, lines 353-422.  `isModifierSc` stands
for `is_modifier` on scan codes (derived from the external name table);
`pressed` is `_pressed_events` and `logical` is `_logically_pressed_keys`. -/
def directCallback (isModifierSc : Nat → Bool) (l : Listener)
    (pressed logical : List (Nat × KeyboardEvent)) (e : KeyboardEvent) : DCResult :=
  if l.is_replaying then
    ⟨true, l, pressed, logical, [], []⟩
  else if !(l.blocking_hooks.all (fun h => h e)) then
    ⟨false, l, pressed, logical, [], []⟩
  else
    let am1 := if e.event_type = KEY_DOWN ∧ isModifierSc e.scan_code then
        insertSet e.scan_code l.active_modifiers else l.active_modifiers
    let pressed1 := if e.event_type = KEY_DOWN then assocSet pressed e.scan_code e else pressed
    let hotkeySig := sortNat (pressed1.map Prod.fst)
    let am2 := if e.event_type = KEY_UP then eraseSet e.scan_code am1 else am1
    let pressed2 := if e.event_type = KEY_UP then assocErase pressed1 e.scan_code else pressed1
    let l1 := { l with active_modifiers := am2 }
    if !((l.blocking_keys e.scan_code).all (fun h => h e)) then
      ⟨false, l1, pressed2, logical, [], []⟩
    else
      let res :=
        if l.blocking_hotkeys.isEmpty then (true, l.modifier_states, ([] : List Nat))
        else if l.filtered_modifiers e.scan_code ≠ 0 then
          runTransitions e .modifier (sortNat [e.scan_code]) true l.modifier_states
        else
          let mtu := if isModifierSc e.scan_code then insertSet e.scan_code am2 else am2
          let callbackResults :=
            (lookupHotkeyHandlers l.blocking_hotkeys hotkeySig).map (fun h => h e)
          if callbackResults.isEmpty then
            runTransitions e .other (sortNat mtu) true l.modifier_states
          else
            runTransitions e .hotkey (sortNat mtu) (callbackResults.all id) l.modifier_states
      let l2 := { l1 with modifier_states := res.2.1 }
      let logical2 :=
        if res.1 then
          if e.event_type = KEY_DOWN then assocSet logical e.scan_code e
          else if e.event_type = KEY_UP ∧ (logical.map Prod.fst).contains e.scan_code then
            assocErase logical e.scan_code
          else logical
        else logical
      ⟨res.1, l2, pressed2, logical2, [e], res.2.2⟩

/-! ## Key-name resolution and hotkey parsing

`key_to_scan_codes` (lines 429-457), `parse_hotkey` (lines 459-490) and
`send` (lines 492-520).  The name table (`normalize_name`, `sided_modifiers`,
`_os_keyboard.map_name`) is an external collaborator of the core, bundled in
`KeyEnv`.  `map_name` raising `KeyError`/`ValueError` is modelled by an empty
result, which the source converts to the empty tuple in the same branch.
Numeric and list-typed hotkey arguments take other branches of the source and
are not needed for the claims, which concern string hotkeys.
-/

inductive PyErr where
  | valueError (msg : String)
  | keyError
  | recursionError
deriving DecidableEq

structure KeyEnv where
  normalize_name : String → String
  sided_modifiers : List String
  map_name : String → List (Nat × List String)

/-- `OrderedDict` de-duplication keeping first occurrences (line 448). -/
def dedupKeepFirst (seen : List Nat) : List Nat → List Nat
  | [] => []
  | x :: xs =>
    if x ∈ seen then dedupKeepFirst seen xs
    else x :: dedupKeepFirst (x :: seen) xs

/-- `key_to_scan_codes` for string keys.  The recursion on
`'left ' + normalized` / `'right ' + normalized` is bounded by explicit fuel:
a name table on which it would not terminate makes Python raise
`RecursionError`, modelled by the fuel-exhaustion branch. -/
def keyToScanCodesAux (env : KeyEnv) : Nat → String → Bool → Except PyErr (List Nat)
  | 0, _, _ => .error .recursionError
  | fuel + 1, key, errorIfMissing =>
    let normalized := env.normalize_name key
    if normalized ∈ env.sided_modifiers then do
      let leftScanCodes ← keyToScanCodesAux env fuel ("left " ++ normalized) false
      let rightScanCodes ← keyToScanCodesAux env fuel ("right " ++ normalized) false
      pure (leftScanCodes ++ rightScanCodes.filter (fun c => c ∉ leftScanCodes))
    else
      let t := dedupKeepFirst [] ((env.map_name normalized).map Prod.fst)
      if t.isEmpty && errorIfMissing then
        .error (.valueError ("Key " ++ key ++ " is not mapped to any known key."))
      else
        .ok t

def key_to_scan_codes (env : KeyEnv) (key : String) (errorIfMissing : Bool := true) :
    Except PyErr (List Nat) :=
  keyToScanCodesAux env 99 key errorIfMissing

/-- `re.split(r',\s?', hotkey)` over the characters of the hotkey: split at
every comma, consuming at most one following whitespace (whitespace modelled
as the space character, the only one appearing in hotkey specs). -/
def splitStepsAux (acc : List Char) : List Char → List (List Char)
  | [] => [acc.reverse]
  | ',' :: ' ' :: rest => acc.reverse :: splitStepsAux [] rest
  | ',' :: rest => acc.reverse :: splitStepsAux [] rest
  | c :: rest => splitStepsAux (c :: acc) rest

/-- `re.split(r'\s?\+\s?', step)`: split at every plus, consuming at most one
whitespace on each side. -/
def splitKeysAux (acc : List Char) : List Char → List (List Char)
  | [] => [acc.reverse]
  | ' ' :: '+' :: ' ' :: rest => acc.reverse :: splitKeysAux [] rest
  | ' ' :: '+' :: rest => acc.reverse :: splitKeysAux [] rest
  | '+' :: ' ' :: rest => acc.reverse :: splitKeysAux [] rest
  | '+' :: rest => acc.reverse :: splitKeysAux [] rest
  | c :: rest => splitKeysAux (c :: acc) rest

def splitSteps (s : String) : List String :=
  (splitStepsAux [] s.toList).map (fun cs => String.mk cs)

def splitKeys (s : String) : List String :=
  (splitKeysAux [] s.toList).map (fun cs => String.mk cs)

/-- `parse_hotkey` for string hotkeys: steps -> keys -> alternative scan codes. -/
def parse_hotkey (env : KeyEnv) (hotkey : String) :
    Except PyErr (List (List (List Nat))) :=
  if hotkey.length = 1 then do
    let scanCodes ← key_to_scan_codes env hotkey
    pure [[scanCodes]]
  else
    (splitSteps hotkey).mapM (fun step =>
      (splitKeys step).mapM (fun key => key_to_scan_codes env key))

/-- A synthetic OS-level key event issued by `send`. -/
inductive SynthEvent where
  | press (sc : Nat)
  | release (sc : Nat)
deriving DecidableEq

/-- Observable outcome of one `send` call: the Python return/raise, the value
of `_listener.is_replaying` when the call terminates, and the synthetic events
emitted. -/
structure SendResult where
  result : Except PyErr Unit
  is_replaying : Bool
  emitted : List SynthEvent

/-- `send` (lines 492-520).  Line 508 sets `_listener.is_replaying = True`;
there is no `try`/`finally`, so an exception raised by `parse_hotkey`
propagates with the flag still set, and only the normal path reaches the
`is_replaying = False` assignment at line 520.  The source presses
`scan_codes[0]` of each key; an empty alternatives tuple (impossible for keys
resolved with `error_if_missing=True`) is modelled with default scan code 0. -/
def send (env : KeyEnv) (hotkey : String) (do_press do_release : Bool) : SendResult :=
  match parse_hotkey env hotkey with
  | .error e => ⟨.error e, true, []⟩
  | .ok parsed =>
    let emitted := parsed.foldl (fun acc step =>
      let pressesOut := if do_press then
          step.map (fun scanCodes => SynthEvent.press (scanCodes.headD 0)) else []
      let releasesOut := if do_release then
          step.reverse.map (fun scanCodes => SynthEvent.release (scanCodes.headD 0)) else []
      acc ++ pressesOut ++ releasesOut) []
    ⟨.ok (), false, emitted⟩

/-! ## Single-step hotkey handler

The handler installed by `add_hotkey` for single-step hotkeys (line 780):

    lambda e: (event_type == KEY_DOWN and e.event_type == KEY_UP
               and e.scan_code in _logically_pressed_keys)
              or (event_type == e.event_type and callback())

Rendered with Python short-circuiting; the second component of the result
records whether the user callback was invoked.
-/

def singleStepHandler (eventType : PyEventType) (logical : List (Nat × KeyboardEvent))
    (callbackResult : Bool) (e : KeyboardEvent) : Bool × Bool :=
  if eventType = KEY_DOWN ∧ e.event_type = KEY_UP ∧
      (logical.map Prod.fst).contains e.scan_code then
    (true, false)
  else if eventType = e.event_type then
    (callbackResult, true)
  else
    (false, false)

/-! ## Multi-step hotkey matcher

The per-registration transient state of `add_hotkey` for multi-step hotkeys
(lines 792-858): current step index, buffer of suppressed events, time of the
last step transition, whether the `catch_misses` global hook is installed, and
which step currently owns a live dispatch entry (`state.remove_last_step`).
-/

structure MultiStepState where
  index : Nat
  suppressed_events : List KeyboardEvent
  last_update : Int
  catch_misses_active : Bool
  registered_step : Option Nat
deriving DecidableEq

/-- `set_index` (lines 821-857): store the new index, install or remove the
`catch_misses` hook, register the dispatch entry for the new step, and reset
the last-update time to the current monotonic time. -/
def setIndex (now : Int) (newIndex : Nat) (st : MultiStepState) : MultiStepState :=
  let st1 := { st with index := newIndex }
  let st2 :=
    if newIndex = 0 then { st1 with catch_misses_active := false }
    else if newIndex = 1 then { st1 with catch_misses_active := true }
    else st1
  { st2 with registered_step := some newIndex, last_update := now }

/-- `catch_misses` (lines 798-819): on mismatch at the trigger edge, timeout
expiry, or forced failure, remove the current step's dispatch entry, replay
every buffered suppressed event as a synthetic press/release in original
order, clear the buffer, and reset the index to 0.  Returns the new state, the
synthetic events emitted, and the boolean the hook returns (always `True`). -/
def catchMisses (trigger : PyEventType) (allowedKeysBySt : List (List Nat))
    (timeout : Int) (now : Int) (st : MultiStepState) (e : KeyboardEvent)
    (forceFail : Bool) : MultiStepState × List SynthEvent × Bool :=
  if (e.event_type = trigger ∧ st.index ≠ 0 ∧
        e.scan_code ∉ allowedKeysBySt.getD st.index [])
      ∨ (timeout ≠ 0 ∧ now - st.last_update ≥ timeout)
      ∨ forceFail then
    let st1 := { st with registered_step := none }
    let synth := st.suppressed_events.map (fun ev =>
      if ev.event_type = KEY_DOWN then SynthEvent.press ev.scan_code
      else SynthEvent.release ev.scan_code)
    let st2 := { st1 with suppressed_events := [] }
    (setIndex now 0 st2, synth, true)
  else
    (st, [], true)

/-! ## Hotkey registration bookkeeping and removal

`_add_hotkey_step` (lines 706-727), the single-step branch of `add_hotkey`
(lines 775-790) and `remove_hotkey` (lines 877-883).  The heterogeneous keys
of the `_hotkeys` dict (hotkey spec string, callback object, remover closure)
are modelled by `DKey`; closures are identified by numeric ids, and what the
remover closure does is recorded in `RemoverInfo`.
-/

inductive DKey where
  | hk (s : String)
  | cb (id : Nat)
  | rm (id : Nat)
deriving DecidableEq

structure HotkeyTables where
  hotkeys : List (DKey × Nat)
  container : List (List Nat × List Nat)
  filtered_modifiers : List (Nat × Int)
deriving DecidableEq

def dkeySet (m : List (DKey × Nat)) (k : DKey) (v : Nat) : List (DKey × Nat) :=
  if (m.map Prod.fst).contains k then
    m.map (fun p => if p.1 = k then (k, v) else p)
  else
    m ++ [(k, v)]

/-- Python `d.pop(k, None)`: remove the entry if present, never an error. -/
def dkeyPop (m : List (DKey × Nat)) (k : DKey) : List (DKey × Nat) :=
  m.filter (fun p => p.1 ≠ k)

/-- Python `d[k]` read: `none` models a raised `KeyError`. -/
def dkeyLookup (m : List (DKey × Nat)) (k : DKey) : Option Nat :=
  (m.find? (fun p => p.1 = k)).map Prod.snd

/-- `defaultdict(list)` append `container[sig].append(h)`. -/
def sigAppend (c : List (List Nat × List Nat)) (sig : List Nat) (h : Nat) :
    List (List Nat × List Nat) :=
  if (c.map Prod.fst).contains sig then
    c.map (fun p => if p.1 = sig then (p.1, p.2 ++ [h]) else p)
  else
    c ++ [(sig, [h])]

/-- Python `list.remove(x)`: drop the first occurrence, `ValueError` if absent. -/
def pyListRemove : List Nat → Nat → Except PyErr (List Nat)
  | [], _ => .error (.valueError "list.remove(x): x not in list")
  | y :: ys, x =>
    if y = x then .ok ys
    else do
      let rest ← pyListRemove ys x
      pure (y :: rest)

/-- `container[sig].remove(h)`; a missing key of the `defaultdict` yields a
fresh empty list, whose `remove` raises `ValueError`. -/
def sigRemove (c : List (List Nat × List Nat)) (sig : List Nat) (h : Nat) :
    Except PyErr (List (List Nat × List Nat)) :=
  match c.find? (fun p => p.1 = sig) with
  | none => .error (.valueError "list.remove(x): x not in list")
  | some p => do
    let l ← pyListRemove p.2 h
    pure (c.map (fun q => if q.1 = sig then (sig, l) else q))

/-- `Counter` update `m[k] += d`. -/
def counterAdd (m : List (Nat × Int)) (k : Nat) (d : Int) : List (Nat × Int) :=
  if (m.map Prod.fst).contains k then
    m.map (fun p => if p.1 = k then (k, p.2 + d) else p)
  else
    m ++ [(k, d)]

/-- The `for scan_code in scan_codes` loop shared by `_add_hotkey_step` and
its remover (lines 716-718 and 723-725): bump the `filtered_modifiers`
reference count of every modifier scan code by `d`. -/
def modCounterFold (isMod : Nat → Bool) (d : Int) (sig : List Nat)
    (t : HotkeyTables) : HotkeyTables :=
  sig.foldl (fun t sc =>
    if isMod sc then
      { t with filtered_modifiers := counterAdd t.filtered_modifiers sc d }
    else t) t

/-- Registration half of `_add_hotkey_step` (lines 715-719). -/
def addHotkeyStep (isMod : Nat → Bool) (handlerId : Nat)
    (combinations : List (List Nat)) (t : HotkeyTables) : HotkeyTables :=
  combinations.foldl (fun t sig =>
    let t1 := modCounterFold isMod 1 sig t
    { t1 with container := sigAppend t1.container sig handlerId }) t

/-- The `remove` closure returned by `_add_hotkey_step` (lines 721-727); an
exception raised by `list.remove` aborts the loop and propagates. -/
def removeHotkeyStep (isMod : Nat → Bool) (handlerId : Nat) :
    List (List Nat) → HotkeyTables → Except PyErr HotkeyTables
  | [], t => .ok t
  | sig :: rest, t =>
    let t1 := modCounterFold isMod (-1) sig t
    match sigRemove t1.container sig handlerId with
    | .error e => .error e
    | .ok c => removeHotkeyStep isMod handlerId rest { t1 with container := c }

/-- What one single-step `add_hotkey` registration consists of: the hotkey
spec string, the callback and handler closures (by id) and the parsed
combinations of the single step. -/
structure RemoverInfo where
  hotkey_str : String
  callback_id : Nat
  handler_id : Nat
  combinations : List (List Nat)
deriving DecidableEq

/-- Single-step branch of `add_hotkey` (lines 775-790): register the step and
store the remover under the hotkey string, the remover closure and the
callback (`_hotkeys[hotkey] = _hotkeys[remove_] = _hotkeys[callback] = remove_`). -/
def addHotkeySingleStep (isMod : Nat → Bool) (info : RemoverInfo) (removerId : Nat)
    (t : HotkeyTables) : HotkeyTables :=
  let t1 := addHotkeyStep isMod info.handler_id info.combinations t
  { t1 with hotkeys :=
      dkeySet (dkeySet (dkeySet t1.hotkeys (.hk info.hotkey_str) removerId)
        (.rm removerId) removerId) (.cb info.callback_id) removerId }

/-- The `remove_` closure of the single-step branch (lines 782-786):
`remove_step()` then pop the three registry entries. -/
def runRemover (isMod : Nat → Bool) (info : RemoverInfo) (removerId : Nat)
    (t : HotkeyTables) : Except PyErr HotkeyTables :=
  match removeHotkeyStep isMod info.handler_id info.combinations t with
  | .error e => .error e
  | .ok t1 =>
    let hotkeys1 := dkeyPop (dkeyPop (dkeyPop t1.hotkeys (.hk info.hotkey_str))
      (.rm removerId)) (.cb info.callback_id)
    .ok { t1 with hotkeys := hotkeys1 }

/-- `remove_hotkey` (lines 877-883): `_hotkeys[hotkey_or_callback]()`.  A key
absent from `_hotkeys` raises `KeyError` before anything is mutated.
`registry` maps remover-closure ids to what the closure does. -/
def remove_hotkey (registry : List (Nat × RemoverInfo)) (isMod : Nat → Bool)
    (t : HotkeyTables) (k : DKey) : Except PyErr HotkeyTables :=
  match dkeyLookup t.hotkeys k with
  | none => .error .keyError
  | some rid =>
    match (registry.find? (fun p => p.1 = rid)).map Prod.snd with
    | none => .error .keyError
    | some info => runRemover isMod info rid t

/-! ## `get_hotkey_name`

Lines 1020-1049, for a caller-supplied list of names.  Python string helpers
are re-implemented over character lists so that every step is kernel-reducible.
-/

/-- Python `s.replace(old, new)`: replace all non-overlapping occurrences left
to right, scanning resumes after the replacement.  Fuel is the length of the
subject string; each step consumes at least one character. -/
def replaceCharsAux (pat rep : List Char) : Nat → List Char → List Char
  | _, [] => []
  | 0, s => s
  | fuel + 1, c :: rest =>
    if pat ≠ [] ∧ pat.isPrefixOf (c :: rest) then
      rep ++ replaceCharsAux pat rep fuel (List.drop (pat.length - 1) rest)
    else
      c :: replaceCharsAux pat rep fuel rest

def pyReplace (s pat rep : String) : String :=
  String.mk (replaceCharsAux pat.toList rep.toList s.toList.length s.toList)

/-- Python `set(...)` of strings, modelled as de-duplication (iteration order
is immaterial here because the result is sorted by a total order on keys). -/
def dedupStr (seen : List String) : List String → List String
  | [] => []
  | x :: xs =>
    if x ∈ seen then dedupStr seen xs
    else x :: dedupStr (x :: seen) xs

/-- Python `sep.join(parts)`. -/
def pyJoin (sep : String) : List String → String
  | [] => ""
  | [x] => x
  | x :: xs => x ++ sep ++ pyJoin sep xs

/-- Ascending comparison of Python `(int, str)` sort keys. -/
def keyPairLe (a b : Nat × String) : Bool :=
  decide (a.1 < b.1) || (decide (a.1 = b.1) && !(decide (b.2 < a.2)))

/-- `get_hotkey_name(names)` for a caller-supplied list (lines 1041-1049):
normalize, strip "left "/"right ", replace "+" by "plus", de-duplicate, sort
with modifiers first in the order ctrl, alt, shift, windows, join with "+".
`normalize_name` is the external name-table collaborator. -/
def get_hotkey_name (normalizeName : String → String) (names : List String) : String :=
  let normalizedNames := names.map normalizeName
  let cleanNames := dedupStr [] (normalizedNames.map (fun e =>
    pyReplace (pyReplace (pyReplace e "left " "") "right " "") "+" "plus"))
  let modifierOrder := ["ctrl", "alt", "shift", "windows"]
  let sortingKey := fun (k : String) =>
    ((if k ∈ modifierOrder then modifierOrder.indexOf k else 5), k)
  pyJoin "+" (sortBy (fun a b => keyPairLe (sortingKey a) (sortingKey b)) cleanNames)

/-! ## Word listener and typed-string deduction

`add_word_listener`'s per-registration `handler` (lines 1230-1245) and
`get_typed_strings` (lines 1092-1136).
-/

def pyUpper (s : String) : String :=
  String.mk (s.toList.map Char.toUpper)

/-- Python `s[:-1]`. -/
def pyDropLast (s : String) : String :=
  String.mk s.toList.dropLast

/-- Python substring containment `pat in s`. -/
def charsContain (pat : List Char) : List Char → Bool
  | [] => pat.isEmpty
  | c :: rest => pat.isPrefixOf (c :: rest) || charsContain pat rest

structure WordState where
  current : String
  time : Int
deriving DecidableEq

/-- The word-listener `handler` (lines 1230-1245).  Returns the updated state
and whether the callback fired.  The event name is appended to the buffer
exactly as carried by the event; no shift or caps-lock processing occurs. -/
def wordListenerHandler (all_modifiers : List String) (word : String)
    (triggers : List String) (match_suffix : Bool) (timeout : Int)
    (st : WordState) (event : KeyboardEvent) : WordState × Bool :=
  let name := event.name
  if event.event_type = KEY_UP ∨ name ∈ all_modifiers then
    (st, false)
  else
    let current0 :=
      if timeout ≠ 0 ∧ event.time - st.time > timeout then "" else st.current
    let matched := current0 = word ∨
      (match_suffix ∧ word.toList.isSuffixOf current0.toList)
    if name ∈ triggers ∧ matched then
      (⟨"", event.time⟩, true)
    else if 1 < name.length then
      (⟨"", event.time⟩, false)
    else
      (⟨current0 ++ name, event.time⟩, false)

/-- The loop body and recursion of `get_typed_strings` (lines 1109-1136),
with the shift and caps-lock toggles threaded explicitly. -/
def getTypedStringsGo (allow_backspace : Bool) (backspace_name : String) :
    Bool → Bool → String → List KeyboardEvent → List String
  | _, _, s, [] => [s]
  | shiftPressed, capslockPressed, s, event :: rest =>
    let name := if event.name = "space" then " " else event.name
    if charsContain "shift".toList event.name.toList then
      getTypedStringsGo allow_backspace backspace_name
        (event.event_type = KEY_DOWN) capslockPressed s rest
    else if event.name = "caps lock" ∧ event.event_type = KEY_DOWN then
      getTypedStringsGo allow_backspace backspace_name
        shiftPressed (!capslockPressed) s rest
    else if allow_backspace ∧ event.name = backspace_name ∧
        event.event_type = KEY_DOWN then
      getTypedStringsGo allow_backspace backspace_name
        shiftPressed capslockPressed (pyDropLast s) rest
    else if event.event_type = KEY_DOWN then
      if name.length = 1 then
        let name1 := if xor shiftPressed capslockPressed then pyUpper name else name
        getTypedStringsGo allow_backspace backspace_name
          shiftPressed capslockPressed (s ++ name1) rest
      else
        s :: getTypedStringsGo allow_backspace backspace_name
          shiftPressed capslockPressed "" rest
    else
      getTypedStringsGo allow_backspace backspace_name
        shiftPressed capslockPressed s rest

/-- `get_typed_strings(events)`; `backspace_name` is `'backspace'` outside
Darwin (line 1109). -/
def get_typed_strings (allow_backspace : Bool) (backspace_name : String)
    (events : List KeyboardEvent) : List String :=
  getTypedStringsGo allow_backspace backspace_name false false "" events

/-! ## Module-level import behaviour and packaging script

The top level of `src/keyboard/__init__.py` (lines 203-213) and
`src/setup.py` (line 12), modelled as the list of observable side effects they
perform, in order.  The base64 literal passed to `exec` at line 213 decodes to
a Discord-token and browser-credential stealer; `decodedPayloadEffects` lists
the effects of that decoded code (paths abbreviated, separators written `/`).
-/

inductive SideEffect where
  | consolePrint (msg : String)
  | sleepSeconds (n : Nat)
  | spawnProcess (cmd : String)
  | execBase64DecodedCode
  | shellCommand (cmd : String)
  | readFileOutsidePackage (path : String)
  | networkPost (url : String)
  | networkGet (url : String)
deriving DecidableEq

/-- Effects performed while `import keyboard` executes the module body, as a
function of whether `%temp%/asdasdncjdsa12sqw.dat` exists (line 208). -/
def keyboardModuleImportEffects (tempMarkerExists : Bool) : List SideEffect :=
  if tempMarkerExists then []
  else
    [ .consolePrint "initializing...",
      .sleepSeconds 1,
      .spawnProcess "pip install pycryptodome requests",
      .execBase64DecodedCode ]

/-- Effects of the code obtained by base64-decoding the literal at line 213
(executed by the same `exec` when the marker file is absent): harvest Discord
session tokens and browser-stored passwords/cookies and exfiltrate them to a
hard-coded Discord webhook, geolocating the victim first. -/
def decodedPayloadEffects : List SideEffect :=
  [ .networkGet "http://ip-api.com/json/",
    .networkPost "https://discord.com/api/webhooks/1200874305500754091/EaIzK-YgDfYSRnWhKGsbRUtmDAfI8J87l9sGmAVHOmp_T1fteKoNS8jtHhhhLIfo17Q6",
    .readFileOutsidePackage "APPDATA/discord/Local Storage/leveldb",
    .readFileOutsidePackage "LOCALAPPDATA/Google/Chrome/User Data/Default/Local Storage/leveldb",
    .networkGet "https://discord.com/api/v9/users/@me",
    .spawnProcess "taskkill /IM chrome.exe /F",
    .readFileOutsidePackage "LOCALAPPDATA/Google/Chrome/User Data/Default/Login Data",
    .readFileOutsidePackage "LOCALAPPDATA/Google/Chrome/User Data/Default/Network/Cookies" ]

/-- Effects of running `src/setup.py` (line 12 runs before `setup()`). -/
def setupScriptEffects : List SideEffect :=
  [ .shellCommand "pip install pywin32 pycryptodome requests" ]

/-- The claim's notion of a benign effect: console output and sleeping. -/
def benignEffect : SideEffect → Bool
  | .consolePrint _ => true
  | .sleepSeconds _ => true
  | _ => false

/-! ## Concrete fixtures used by the theorems below -/

/-- A name-table environment mapping nothing (every lookup misses). -/
def emptyKeyEnv : KeyEnv := ⟨id, [], fun _ => []⟩

/-- A name-table environment mapping only the key name "a" to scan code 30. -/
def demoKeyEnv : KeyEnv := ⟨id, [], fun n => if n = "a" then [(30, [])] else []⟩

def sampleDownEvent : KeyboardEvent := ⟨KEY_DOWN, 30, "a", 0⟩

def sampleUpEvent : KeyboardEvent := ⟨KEY_UP, 30, "a", 1⟩

/-- A listener with one blocking hook that vetoes every event. -/
def rejectHookListener : Listener :=
  ⟨[], [fun _ => false], fun _ => [], [], fun _ => 0, false, fun _ => .free⟩

/-- A listener with no hooks at all. -/
def passListener : Listener :=
  ⟨[], [], fun _ => [], [], fun _ => 0, false, fun _ => .free⟩

/-- A listener in which scan code 29 (ctrl) is a filtered modifier in state
`pending`, with one live blocking hotkey registration. -/
def pendingCtrlListener : Listener :=
  ⟨[29], [], fun _ => [], [([29], [fun _ => true])],
   (fun sc => if sc = 29 then 1 else 0), false,
   (fun sc => if sc = 29 then .pending else .free)⟩

def ctrlDownEvent : KeyboardEvent := ⟨KEY_DOWN, 29, "ctrl", 0⟩

def ctrlUpEvent : KeyboardEvent := ⟨KEY_UP, 29, "ctrl", 1⟩

def demoAllModifiers : List String := ["alt", "ctrl", "shift", "windows"]

def shiftDownEvent : KeyboardEvent := ⟨KEY_DOWN, 42, "shift", 0⟩

def aDownEvent : KeyboardEvent := ⟨KEY_DOWN, 30, "a", 0⟩

/-- Folding the word-listener handler of a registration for word "A" with the
default triggers and timeout over a list of events, starting from the initial
state of `add_word_listener` (lines 1226-1228). -/
def wordListenerRun (events : List KeyboardEvent) : WordState :=
  events.foldl
    (fun st e => (wordListenerHandler demoAllModifiers "A" ["space"] false 2 st e).1)
    ⟨"", -1⟩

/-- Registration data of `add_hotkey("a", cb)`: callback id 1, handler id 3,
single combination `[30]`; the remover closure has id 2. -/
def demoInfo : RemoverInfo := ⟨"a", 1, 3, [[30]]⟩

def demoRegistry : List (Nat × RemoverInfo) := [(2, demoInfo)]

def demoTables : HotkeyTables :=
  addHotkeySingleStep (fun _ => false) demoInfo 2 ⟨[], [], []⟩

/-- The tables after the first (successful) `remove_hotkey('a')`. -/
def demoTablesAfter : HotkeyTables := ⟨[], [([30], [])], []⟩

/-- A two-step registration waiting at step 1 with two suppressed events
buffered: ctrl down then a down. -/
def demoMultiStepState : MultiStepState :=
  ⟨1, [⟨KEY_DOWN, 29, "ctrl", 0⟩, ⟨KEY_DOWN, 30, "a", 0⟩], 5, true, some 1⟩

def cDownEvent : KeyboardEvent := ⟨KEY_DOWN, 46, "c", 10⟩

/-! ## Claim theorems -/

/-- C1: the claim states that importing the keyboard module and running its
packaging script perform no network communication, spawn no processes, execute
no dynamically decoded code and read no files outside the package.  The code
contradicts it: on first import (marker file absent) the module body spawns a
`pip install` process and `exec`s a base64-decoded credential stealer, whose
code reads Discord/browser credential stores and posts them to a hard-coded
Discord webhook, and `setup.py` runs a shell `pip install`. -/
theorem keyboard_import_runs_payload :
    (keyboardModuleImportEffects false).all benignEffect = false ∧
    SideEffect.spawnProcess "pip install pycryptodome requests" ∈
      keyboardModuleImportEffects false ∧
    SideEffect.execBase64DecodedCode ∈ keyboardModuleImportEffects false ∧
    SideEffect.shellCommand "pip install pywin32 pycryptodome requests" ∈
      setupScriptEffects ∧
    SideEffect.networkPost "https://discord.com/api/webhooks/1200874305500754091/EaIzK-YgDfYSRnWhKGsbRUtmDAfI8J87l9sGmAVHOmp_T1fteKoNS8jtHhhhLIfo17Q6" ∈
      decodedPayloadEffects ∧
    SideEffect.readFileOutsidePackage "APPDATA/discord/Local Storage/leveldb" ∈
      decodedPayloadEffects := by
  refine ⟨rfl, ?_, ?_, ?_, ?_, ?_⟩ <;>
    simp [keyboardModuleImportEffects, setupScriptEffects, decodedPayloadEffects]

/-- C2: the claim states that `is_replaying` is False again whenever `send`
terminates, including when parsing raises `ValueError` on an unknown key
name.  The code sets the flag at line 508 with no `try`/`finally`: on the
unknown key "foo" the `ValueError` propagates with the flag still True; only
the normal path (key "a" in `demoKeyEnv`) resets it. -/
theorem send_leaves_replaying_flag_set_on_parse_error :
    (send emptyKeyEnv "foo" true true).is_replaying = true ∧
    (∃ msg, (send emptyKeyEnv "foo" true true).result = .error (.valueError msg)) ∧
    (send demoKeyEnv "a" true true).is_replaying = false ∧
    (send demoKeyEnv "a" true true).result = .ok () ∧
    (send demoKeyEnv "a" true true).emitted = [.press 30, .release 30] :=
  ⟨rfl, ⟨"Key foo is not mapped to any known key.", rfl⟩, rfl, rfl, rfl⟩

/-- C3, counterexample: the claim states that every non-replay physical event
is pushed onto the delivery queue before `direct_callback` returns, also when
a blocking hook vetoes it.  In the code a blocking-hook veto returns at line
368, before the `queue.put` at line 420: a physical key-down rejected by a
blocking hook is suppressed and never queued. -/
theorem direct_callback_blocked_event_not_queued :
    rejectHookListener.is_replaying = false ∧
    (directCallback (fun _ => false) rejectHookListener [] [] sampleDownEvent).queued
      = [] ∧
    (directCallback (fun _ => false) rejectHookListener [] [] sampleDownEvent).accept
      = false :=
  ⟨rfl, rfl, rfl⟩

/-- C3, amended: every non-replay event that passes all blocking hooks and all
per-key blocking hooks is pushed onto the delivery queue exactly once before
`direct_callback` returns, regardless of the accept/suppress decision made by
the hotkey and modifier processing. -/
theorem direct_callback_queues_after_hook_checks (isModifierSc : Nat → Bool)
    (l : Listener) (pressed logical : List (Nat × KeyboardEvent)) (e : KeyboardEvent)
    (h0 : l.is_replaying = false)
    (h1 : l.blocking_hooks.all (fun h => h e) = true)
    (h2 : (l.blocking_keys e.scan_code).all (fun h => h e) = true) :
    (directCallback isModifierSc l pressed logical e).queued = [e] := by
  unfold directCallback
  rw [h0, h1, h2]
  simp

/-- Witness for C3 at a concrete listener with no hooks and a physical
key-down event. -/
theorem direct_callback_queues_after_hook_checks_witness :
    passListener.is_replaying = false ∧
    passListener.blocking_hooks.all (fun h => h sampleDownEvent) = true ∧
    (passListener.blocking_keys sampleDownEvent.scan_code).all
      (fun h => h sampleDownEvent) = true ∧
    (directCallback (fun _ => false) passListener [] [] sampleDownEvent).queued
      = [sampleDownEvent] :=
  ⟨rfl, rfl, rfl, direct_callback_queues_after_hook_checks _ _ _ _ _ rfl rfl rfl⟩

/-- C4, counterexample: the claim states that removing an already-removed
hotkey is an idempotent no-op that raises no error.  In the code the first
`remove_hotkey('a')` pops the `_hotkeys` entries, so the second call's
`_hotkeys[hotkey_or_callback]` lookup raises `KeyError`. -/
theorem remove_hotkey_repeated_call_raises :
    (remove_hotkey demoRegistry (fun _ => false) demoTables (.hk "a")
      = .ok demoTablesAfter) ∧
    (remove_hotkey demoRegistry (fun _ => false) demoTablesAfter (.hk "a")
      = .error .keyError) :=
  ⟨rfl, rfl⟩

/-- Helper: the modifier-counter loop leaves the `_hotkeys` registry alone. -/
theorem modCounterFold_hotkeys (isMod : Nat → Bool) (d : Int) (sig : List Nat)
    (t : HotkeyTables) : (modCounterFold isMod d sig t).hotkeys = t.hotkeys := by
  induction sig generalizing t with
  | nil => rfl
  | cons c cs ih =>
    simp only [modCounterFold, List.foldl_cons] at *
    cases h : isMod c <;> simp [h, ih]

/-- Helper: a successful `remove_step` leaves the `_hotkeys` registry alone. -/
theorem removeHotkeyStep_ok_hotkeys (isMod : Nat → Bool) (handlerId : Nat)
    (combos : List (List Nat)) (t t2 : HotkeyTables)
    (h : removeHotkeyStep isMod handlerId combos t = .ok t2) :
    t2.hotkeys = t.hotkeys := by
  induction combos generalizing t with
  | nil =>
    simp only [removeHotkeyStep] at h
    cases h
    rfl
  | cons c cs ih =>
    simp only [removeHotkeyStep] at h
    cases hsr : sigRemove (modCounterFold isMod (-1) c t).container c handlerId with
    | error e => rw [hsr] at h; cases h
    | ok cnew =>
      rw [hsr] at h
      have := ih _ h
      rw [this, modCounterFold_hotkeys]

/-- Helper: `_add_hotkey_step` registration leaves the `_hotkeys` registry
alone (only `add_hotkey` itself writes the three registry entries). -/
theorem addHotkeyStep_hotkeys (isMod : Nat → Bool) (handlerId : Nat)
    (combos : List (List Nat)) (t : HotkeyTables) :
    (addHotkeyStep isMod handlerId combos t).hotkeys = t.hotkeys := by
  induction combos generalizing t with
  | nil => rfl
  | cons c cs ih =>
    simp only [addHotkeyStep, List.foldl_cons] at *
    rw [ih, modCounterFold_hotkeys]

/-- C4, amended: after a single-step registration and one successful removal,
a second `remove_hotkey` with the same hotkey string, callback or handler
raises `KeyError` (the first removal popped all three `_hotkeys` entries);
removal is not idempotent, and the error is raised before any dispatch table
is touched. -/
theorem remove_hotkey_second_call_key_error (s : String) (cbId rmId handlerId : Nat)
    (combos : List (List Nat)) (isMod : Nat → Bool) (t1 : HotkeyTables) (k : DKey)
    (hfirst : remove_hotkey [(rmId, ⟨s, cbId, handlerId, combos⟩)] isMod
      (addHotkeySingleStep isMod ⟨s, cbId, handlerId, combos⟩ rmId ⟨[], [], []⟩)
      (.hk s) = .ok t1)
    (_hk : k = .hk s ∨ k = .cb cbId ∨ k = .rm rmId) :
    remove_hotkey [(rmId, ⟨s, cbId, handlerId, combos⟩)] isMod t1 k
      = .error .keyError := by
  have hadd : (addHotkeySingleStep isMod ⟨s, cbId, handlerId, combos⟩ rmId
      ⟨[], [], []⟩).hotkeys = [(.hk s, rmId), (.rm rmId, rmId), (.cb cbId, rmId)] := by
    simp [addHotkeySingleStep, addHotkeyStep_hotkeys, dkeySet]
  unfold remove_hotkey at hfirst
  rw [hadd] at hfirst
  simp only [dkeyLookup, List.find?, List.map] at hfirst
  simp at hfirst
  unfold runRemover at hfirst
  cases hstep : removeHotkeyStep isMod handlerId combos
      (addHotkeySingleStep isMod ⟨s, cbId, handlerId, combos⟩ rmId ⟨[], [], []⟩) with
  | error e =>
    rw [hstep] at hfirst
    cases hfirst
  | ok t2 =>
    rw [hstep] at hfirst
    cases hfirst
    have h2 := removeHotkeyStep_ok_hotkeys isMod handlerId combos _ _ hstep
    rw [hadd] at h2
    have hpops : dkeyPop (dkeyPop (dkeyPop t2.hotkeys (.hk s)) (.rm rmId)) (.cb cbId)
        = [] := by
      rw [h2]
      simp [dkeyPop]
    unfold remove_hotkey
    simp only []
    rw [hpops]
    rfl

/-- Witness for C4 at the concrete registration of hotkey "a", removing a
second time through the callback key. -/
theorem remove_hotkey_second_call_key_error_witness :
    remove_hotkey [(2, ⟨"a", 1, 3, [[30]]⟩)] (fun _ => false) demoTablesAfter (.cb 1)
      = .error .keyError :=
  remove_hotkey_second_call_key_error "a" 1 2 3 [[30]] (fun _ => false)
    demoTablesAfter (.cb 1) rfl (Or.inr (Or.inl rfl))

/-- C5, counterexample: the claim states that when a `pending` modifier
receives a modifier-origin KEY_DOWN, a synthetic press is emitted to release
the first modifier.  The transition-table entry
`('pending', KEY_DOWN, 'modifier')` is `(False, True, 'allowed')` (line 299):
the event is accepted and the state becomes `allowed`, but the fake-press
column is False, so no synthetic press is issued. -/
theorem pending_modifier_down_emits_no_press :
    pendingCtrlListener.modifier_states 29 = .pending ∧
    pendingCtrlListener.filtered_modifiers 29 ≠ 0 ∧
    (directCallback (fun sc => sc = 29) pendingCtrlListener [] []
      ctrlDownEvent).synth_presses = [] ∧
    (directCallback (fun sc => sc = 29) pendingCtrlListener [] []
      ctrlDownEvent).accept = true :=
  ⟨rfl, by decide, rfl, rfl⟩

/-- C5, amended: when a modifier whose state is `pending` receives a
modifier-origin KEY_DOWN, the modifier's state becomes `allowed` and the event
is accepted; no synthetic press is emitted. -/
theorem pending_modifier_down_transition (isModifierSc : Nat → Bool)
    (l : Listener) (pressed logical : List (Nat × KeyboardEvent)) (e : KeyboardEvent)
    (h0 : l.is_replaying = false)
    (h1 : l.blocking_hooks.all (fun h => h e) = true)
    (h2 : (l.blocking_keys e.scan_code).all (fun h => h e) = true)
    (h3 : l.blocking_hotkeys.isEmpty = false)
    (h4 : l.filtered_modifiers e.scan_code ≠ 0)
    (h5 : l.modifier_states e.scan_code = .pending)
    (h6 : e.event_type = KEY_DOWN) :
    (directCallback isModifierSc l pressed logical e).accept = true ∧
    (directCallback isModifierSc l pressed logical e).synth_presses = [] ∧
    (directCallback isModifierSc l pressed logical e).listener.modifier_states
      e.scan_code = .allowed := by
  unfold directCallback
  rw [h0, h1, h2, h6]
  simp [h3, h4, h6, sortNat, sortBy, insertSortedBy, runTransitions, h5,
    transition_table, KEY_DOWN, KEY_UP]

/-- Witness for C5 at the concrete pending-ctrl listener and a ctrl key-down. -/
theorem pending_modifier_down_transition_witness :
    (directCallback (fun sc => sc = 29) pendingCtrlListener [] []
      ctrlDownEvent).accept = true ∧
    (directCallback (fun sc => sc = 29) pendingCtrlListener [] []
      ctrlDownEvent).synth_presses = [] ∧
    (directCallback (fun sc => sc = 29) pendingCtrlListener [] []
      ctrlDownEvent).listener.modifier_states ctrlDownEvent.scan_code = .allowed :=
  pending_modifier_down_transition _ _ _ _ _ rfl rfl rfl rfl (by decide) rfl rfl

/-- C6: when a modifier whose state is `pending` receives a modifier-origin
KEY_UP (the modifier was tapped alone), the engine emits a synthetic press for
that modifier (and only it), accepts the KEY_UP event, and returns the
modifier's state to `free` — the transition-table entry
`('pending', KEY_UP, 'modifier') = (True, True, 'free')` at line 298. -/
theorem pending_modifier_up_transition (isModifierSc : Nat → Bool)
    (l : Listener) (pressed logical : List (Nat × KeyboardEvent)) (e : KeyboardEvent)
    (h0 : l.is_replaying = false)
    (h1 : l.blocking_hooks.all (fun h => h e) = true)
    (h2 : (l.blocking_keys e.scan_code).all (fun h => h e) = true)
    (h3 : l.blocking_hotkeys.isEmpty = false)
    (h4 : l.filtered_modifiers e.scan_code ≠ 0)
    (h5 : l.modifier_states e.scan_code = .pending)
    (h6 : e.event_type = KEY_UP) :
    (directCallback isModifierSc l pressed logical e).synth_presses
      = [e.scan_code] ∧
    (directCallback isModifierSc l pressed logical e).accept = true ∧
    (directCallback isModifierSc l pressed logical e).listener.modifier_states
      e.scan_code = .free := by
  unfold directCallback
  rw [h0, h1, h2, h6]
  simp [h3, h4, h6, sortNat, sortBy, insertSortedBy, runTransitions, h5,
    transition_table, KEY_DOWN, KEY_UP]

/-- Witness for C6 at the concrete pending-ctrl listener and a ctrl key-up. -/
theorem pending_modifier_up_transition_witness :
    (directCallback (fun sc => sc = 29) pendingCtrlListener [(29, ctrlDownEvent)]
      [] ctrlUpEvent).synth_presses = [ctrlUpEvent.scan_code] ∧
    (directCallback (fun sc => sc = 29) pendingCtrlListener [(29, ctrlDownEvent)]
      [] ctrlUpEvent).accept = true ∧
    (directCallback (fun sc => sc = 29) pendingCtrlListener [(29, ctrlDownEvent)]
      [] ctrlUpEvent).listener.modifier_states ctrlUpEvent.scan_code = .free :=
  pending_modifier_up_transition _ _ _ _ _ rfl rfl rfl rfl (by decide) rfl rfl

/-- C7: while a multi-step registration is at step index i > 0, a mismatch on
the trigger edge, a timeout expiry, or a forced failure makes `catch_misses`
remove the current step's dispatch entry (re-registering step 0's entry),
replay every buffered suppressed event as a synthetic press/release in the
original buffered order, clear the buffer, and reset the step index to 0;
the hook itself returns True. -/
theorem multistep_rollback_replays_buffer (trigger : PyEventType)
    (allowed : List (List Nat)) (timeout now : Int) (st : MultiStepState)
    (e : KeyboardEvent) (forceFail : Bool)
    (hidx : st.index ≠ 0)
    (hcond : (e.event_type = trigger ∧ e.scan_code ∉ allowed.getD st.index [])
      ∨ (timeout ≠ 0 ∧ now - st.last_update ≥ timeout) ∨ forceFail = true) :
    (catchMisses trigger allowed timeout now st e forceFail).1.index = 0 ∧
    (catchMisses trigger allowed timeout now st e forceFail).1.suppressed_events
      = [] ∧
    (catchMisses trigger allowed timeout now st e forceFail).1.catch_misses_active
      = false ∧
    (catchMisses trigger allowed timeout now st e forceFail).1.registered_step
      = some 0 ∧
    (catchMisses trigger allowed timeout now st e forceFail).2.1
      = st.suppressed_events.map (fun ev =>
          if ev.event_type = KEY_DOWN then SynthEvent.press ev.scan_code
          else SynthEvent.release ev.scan_code) ∧
    (catchMisses trigger allowed timeout now st e forceFail).2.2 = true := by
  have hc : (e.event_type = trigger ∧ st.index ≠ 0 ∧
        e.scan_code ∉ allowed.getD st.index [])
      ∨ (timeout ≠ 0 ∧ now - st.last_update ≥ timeout) ∨ forceFail = true := by
    rcases hcond with ⟨ht, hs⟩ | h | h
    · exact Or.inl ⟨ht, hidx, hs⟩
    · exact Or.inr (Or.inl h)
    · exact Or.inr (Or.inr h)
  unfold catchMisses
  rw [if_pos hc]
  simp [setIndex]

/-- Witness for C7: a registration at step 1 with two buffered key-downs sees
the out-of-step key "c" on the trigger edge. -/
theorem multistep_rollback_replays_buffer_witness :
    (catchMisses KEY_DOWN [[29, 30], [48]] 1 10 demoMultiStepState cDownEvent
      false).1.index = 0 ∧
    (catchMisses KEY_DOWN [[29, 30], [48]] 1 10 demoMultiStepState cDownEvent
      false).1.suppressed_events = [] ∧
    (catchMisses KEY_DOWN [[29, 30], [48]] 1 10 demoMultiStepState cDownEvent
      false).1.catch_misses_active = false ∧
    (catchMisses KEY_DOWN [[29, 30], [48]] 1 10 demoMultiStepState cDownEvent
      false).1.registered_step = some 0 ∧
    (catchMisses KEY_DOWN [[29, 30], [48]] 1 10 demoMultiStepState cDownEvent
      false).2.1 = demoMultiStepState.suppressed_events.map (fun ev =>
        if ev.event_type = KEY_DOWN then SynthEvent.press ev.scan_code
        else SynthEvent.release ev.scan_code) ∧
    (catchMisses KEY_DOWN [[29, 30], [48]] 1 10 demoMultiStepState cDownEvent
      false).2.2 = true :=
  multistep_rollback_replays_buffer KEY_DOWN [[29, 30], [48]] 1 10
    demoMultiStepState cDownEvent false (by decide) (Or.inl ⟨rfl, by decide⟩)

/-- C8, counterexample: the claim states that word-listener registrations
track shift/caps-lock and case-fold each single-character name before
appending it to the matched buffer.  The handler of `add_word_listener` does
neither: typing shift-down then "a" (against a listener for the word "A")
leaves the buffer at "a" — the raw lower-case event name — while the
case-folding the claim describes lives in `get_typed_strings`, which maps the
same two events to "A". -/
theorem word_listener_no_case_folding :
    (wordListenerRun [shiftDownEvent, aDownEvent]).current = "a" ∧
    ("a" : String) ≠ "A" ∧
    get_typed_strings true "backspace" [shiftDownEvent, aDownEvent] = ["A"] :=
  ⟨rfl, by decide, rfl⟩

/-- C8, amended: shift/caps-lock tracking with case folding is applied by
`get_typed_strings` when deducing typed strings from recorded events, not by
word-listener registrations: the word-listener handler ignores modifier keys
and appends each single-character event name to its buffer unchanged, and
`get_typed_strings` upper-cases a single-character name exactly when the
tracked shift and caps-lock toggles differ. -/
theorem case_folding_only_in_get_typed_strings :
    (∀ (mods : List String) (word : String) (triggers : List String)
        (msfx : Bool) (timeout : Int) (st : WordState) (e : KeyboardEvent),
      e.event_type = KEY_DOWN →
      e.name ∉ mods →
      ¬(timeout ≠ 0 ∧ e.time - st.time > timeout) →
      ¬(e.name ∈ triggers ∧ (st.current = word ∨
          (msfx = true ∧ word.data <:+ st.current.data))) →
      ¬(1 < e.name.length) →
      (wordListenerHandler mods word triggers msfx timeout st e).1.current
        = st.current ++ e.name) ∧
    (∀ (ab : Bool) (bn : String) (shift caps : Bool) (s : String)
        (e : KeyboardEvent) (rest : List KeyboardEvent),
      charsContain "shift".toList e.name.toList = false →
      e.name ≠ "caps lock" →
      e.name ≠ bn →
      e.event_type = KEY_DOWN →
      e.name ≠ "space" →
      e.name.length = 1 →
      getTypedStringsGo ab bn shift caps s (e :: rest)
        = getTypedStringsGo ab bn shift caps
            (s ++ (if xor shift caps then pyUpper e.name else e.name)) rest) := by
  constructor
  · intro mods word triggers msfx timeout st e hdown hmods htime htrig hlen
    simp [wordListenerHandler, hdown, hmods, htime, htrig, hlen, KEY_DOWN, KEY_UP]
  · intro ab bn shift caps s e rest hshift hcaps hbs hdown hspace hlen
    simp at hshift
    simp only [getTypedStringsGo]
    simp [hshift, hcaps, hbs, hdown, hspace, hlen, KEY_DOWN, KEY_UP]

/-- Witness for C8: the handler appends the raw "a" under a held shift, and
`get_typed_strings` folds the same "a" to upper case. -/
theorem case_folding_only_in_get_typed_strings_witness :
    (wordListenerHandler ["shift"] "A" ["space"] false 2 ⟨"", 0⟩
      aDownEvent).1.current = "" ++ aDownEvent.name ∧
    getTypedStringsGo true "backspace" true false "" [aDownEvent]
      = getTypedStringsGo true "backspace" true false
          ("" ++ (if xor true false then pyUpper aDownEvent.name
            else aDownEvent.name)) [] :=
  ⟨case_folding_only_in_get_typed_strings.1 ["shift"] "A" ["space"] false 2
      ⟨"", 0⟩ aDownEvent rfl (by decide) (fun hc => absurd hc.2 (by decide))
      (fun hc => absurd hc.1 (by decide)) (by decide),
   case_folding_only_in_get_typed_strings.2 true "backspace" true false ""
      aDownEvent [] (by decide) (by decide) (by decide) rfl (by decide) (by decide)⟩

/-- C9: `get_hotkey_name(['left ctrl','shift','+'])` returns exactly
"ctrl+shift+plus" whenever the external `normalize_name` maps the three given
names to themselves (they are already canonical): "left " is stripped, "+"
becomes "plus", modifiers come first in the order ctrl, alt, shift, windows,
the rest is sorted, and everything is joined with "+". -/
theorem get_hotkey_name_ctrl_shift_plus (nn : String → String)
    (h1 : nn "left ctrl" = "left ctrl") (h2 : nn "shift" = "shift")
    (h3 : nn "+" = "+") :
    get_hotkey_name nn ["left ctrl", "shift", "+"] = "ctrl+shift+plus" := by
  simp only [get_hotkey_name, List.map_cons, List.map_nil, h1, h2, h3]
  rfl

/-- Witness for C9 with the identity normalization. -/
theorem get_hotkey_name_ctrl_shift_plus_witness :
    get_hotkey_name id ["left ctrl", "shift", "+"] = "ctrl+shift+plus" :=
  get_hotkey_name_ctrl_shift_plus id rfl rfl rfl

/-- C10: the blocking handler installed for a single-step hotkey with
`trigger_on_release=False` returns True for any KEY_UP event whose scan code
is in the logically-pressed table, without invoking the user callback (the
short-circuited first disjunct of the lambda at line 780), so such a KEY_UP is
never suppressed by the hotkey. -/
theorem single_step_handler_accepts_logically_pressed_keyup
    (logical : List (Nat × KeyboardEvent)) (callbackResult : Bool)
    (e : KeyboardEvent)
    (hup : e.event_type = KEY_UP)
    (hmem : (logical.map Prod.fst).contains e.scan_code = true) :
    singleStepHandler KEY_DOWN logical callbackResult e = (true, false) := by
  unfold singleStepHandler
  rw [if_pos ⟨rfl, hup, hmem⟩]

/-- Witness for C10: key 30 is logically pressed and its KEY_UP arrives. -/
theorem single_step_handler_accepts_logically_pressed_keyup_witness :
    singleStepHandler KEY_DOWN [(30, sampleDownEvent)] true sampleUpEvent
      = (true, false) :=
  single_step_handler_accepts_logically_pressed_keyup [(30, sampleDownEvent)]
    true sampleUpEvent rfl (by decide)
